import Mathlib

/-!
Shallow embedding of the coin place-and-collect simulation (src/main.js).

Numbers: JavaScript floats are modelled as exact rationals; the float
literals 0.7, 0.8, 1.5, 0.02, 1.2, ... become the rationals 7/10, 8/10,
3/2, 1/50, 6/5, ....  The transcendental parts of the environment
(Math.sin for the bob, quaternion rotation, Math.random draws, the XR
camera pose) are passed in as explicit parameters: each call receives
the values the environment would supply, which embeds the fact that the
code re-reads them on every evaluation.

Externally observable actions (the first frame of the collection tween,
the score increment, HUD updates) are recorded in an event trace stored
in the state, so that ordering properties inside one synchronous call
are statable.
-/

set_option autoImplicit false

namespace PlaceCollect

/-- A 3D vector over ℚ (embeds THREE.Vector3 as used by the core logic). -/
structure Vec3 where
  x : ℚ
  y : ℚ
  z : ℚ
deriving DecidableEq

/-- A quaternion record (embeds THREE.Quaternion; only stored and copied,
never used arithmetically by the claims). -/
structure Quat where
  w : ℚ
  x : ℚ
  y : ℚ
  z : ℚ
deriving DecidableEq

/-- Squared Euclidean distance.  The source compares
`c.position.distanceTo(head) < COLLECT_RADIUS` (main.js line 256); since both
sides are nonnegative this is equivalent to comparing squared distance with
the squared radius, which keeps the embedding inside ℚ. -/
def dist2 (p q : Vec3) : ℚ :=
  (p.x - q.x) ^ 2 + (p.y - q.y) ^ 2 + (p.z - q.z) ^ 2

/-- The mutable fields of a THREE.MeshStandardMaterial that the program
touches: emissive colour, opacity, transparent flag (plus the base colour,
which it never mutates).  Colours are rgb triples in [0,1]. -/
structure Material where
  color : Vec3
  emissive : Vec3
  opacity : ℚ
  transparent : Bool
deriving DecidableEq

/-- A coin entity: the fields of the THREE.Mesh the core logic reads or
writes (makeCoin, main.js lines 189-201).  `id` is the object identity
(JS reference); `matId` is the index of its material in the material
table (all coins share index 0, getSharedCoinMat, lines 208-215). -/
structure Coin where
  id : ℕ
  createdAt : ℚ
  pos : Vec3
  rotY : ℚ
  spin : ℚ
  bobAmp : ℚ
  phase : ℚ
  scale : ℚ
  matId : ℕ
deriving DecidableEq

/-- Externally observable actions of the core, in program order. -/
inductive Event where
  /-- The collection tween for coin `objId` executed its first synchronous
  frame (the call `tween()` in collect, main.js line 284). -/
  | effectStart (objId : ℕ)
  /-- `score += 1` (main.js line 286). -/
  | scoreInc
  /-- `updateHUD()` pushed the current score and live count to the HUD. -/
  | hudUpdate
deriving DecidableEq

/-- An in-flight collection tween (the closure state captured by `collect`,
main.js lines 266-284): start time, captured start scale and start
emissive, the material it writes, and the current scale of the detached
object. -/
structure ActiveEffect where
  objId : ℕ
  matId : ℕ
  start : ℚ
  startScale : ℚ
  startEm : Vec3
  curScale : ℚ
deriving DecidableEq

/-- The module-level mutable state of main.js: the coin set (insertion
order kept, as a JS Set iterates in insertion order), the material table,
in-flight collection tweens, score, the placed/paused flags, the spawn
timer, the spawn root transform, and the trace of observable events. -/
structure GState where
  coins : List Coin
  mats : List Material
  effects : List ActiveEffect
  score : ℕ
  placed : Bool
  paused : Bool
  lastSpawnAt : ℚ
  rootPos : Vec3
  rootQuat : Quat
  events : List Event
deriving DecidableEq

/-- MAX_COINS (main.js line 15). -/
def MAX_COINS : ℕ := 30

/-- SPAWN_INTERVAL_MS (main.js line 16). -/
def SPAWN_INTERVAL_MS : ℚ := 1400

/-- COLLECT_RADIUS (main.js line 18). -/
def COLLECT_RADIUS : ℚ := 1 / 2

/-- COIN_LIFETIME (main.js line 21). -/
def COIN_LIFETIME : ℚ := 20000

/-- Tween duration `dur` in collect (main.js line 267). -/
def EFFECT_DUR_MS : ℚ := 180

/-- Fallback material for an out-of-range material index (never hit by
the program: every coin uses index 0 of the singleton table). -/
def defaultMaterial : Material :=
  { color := ⟨1, 1, 1⟩, emissive := ⟨0, 0, 0⟩, opacity := 1, transparent := false }

/-- The singleton coin material created by getSharedCoinMat (main.js lines
208-215): color 0xffd54a, emissive 0x553300, opacity 1, transparent false.
The table is created eagerly here; the source creates it lazily on first
use, which is unobservable to the claims. -/
def initialCoinMat : Material :=
  { color := ⟨1, 213 / 255, 74 / 255⟩
    emissive := ⟨1 / 3, 1 / 5, 0⟩
    opacity := 1
    transparent := false }

/-- THREE.MathUtils.lerpColors as defined at main.js lines 344-348:
componentwise linear interpolation. -/
def lerpColors (c1 c2 : Vec3) (t : ℚ) : Vec3 :=
  ⟨c1.x + (c2.x - c1.x) * t, c1.y + (c2.y - c1.y) * t, c1.z + (c2.z - c1.z) * t⟩

/-- maybeSpawnCoins (main.js lines 177-187).  `u` is the Math.random()
draw of this evaluation (the jitter factor `0.7 + u * 0.8` is recomputed
from a fresh draw on every call); `fresh` is the coin that
makeCoin/positionCoinAroundRoot would build from the RNG draws and camera
pose of this call. -/
def maybeSpawnCoins (s : GState) (nowMs u : ℚ) (fresh : Coin) : GState :=
  if MAX_COINS ≤ s.coins.length then s
  else if nowMs - s.lastSpawnAt < SPAWN_INTERVAL_MS * (7 / 10 + u * (8 / 10)) then s
  else
    { s with
      lastSpawnAt := nowMs
      coins := s.coins ++ [fresh]
      events := s.events ++ [Event.hudUpdate] }

/-- spawnBurst (main.js lines 290-300).  `gen i` is the coin that the
i-th iteration of the loop would build.  The burst size literal is 10;
`Math.min(10, MAX_COINS - coins.size)` equals `min 10 (MAX_COINS -
coins.length)` in ℕ because the pool never exceeds the cap (and for an
oversized pool both sides spawn nothing). -/
def spawnBurst (s : GState) (gen : ℕ → Coin) : GState :=
  if s.placed then
    { s with
      coins := s.coins ++ (List.range (min 10 (MAX_COINS - s.coins.length))).map gen
      events := s.events ++ [Event.hudUpdate] }
  else s

/-- The per-coin motion update inside updateCoins (main.js lines 240-241).
`sq` is the Math.sin supplied by the environment, `t = nowMs / 1000`. -/
def motionCoin (sq : ℚ → ℚ) (rootY t dt : ℚ) (c : Coin) : Coin :=
  { c with
    rotY := c.rotY + c.spin * dt
    pos := ⟨c.pos.x, rootY + 1 / 50 + sq (t + c.phase) * c.bobAmp, c.pos.z⟩ }

/-- The expiry test of updateCoins (main.js line 243):
`nowMs - c.userData.createdAt > COIN_LIFETIME`. -/
def isExpired (nowMs : ℚ) (c : Coin) : Bool :=
  decide (COIN_LIFETIME < nowMs - c.createdAt)

/-- updateCoins (main.js lines 235-250): one pass moves every coin and
marks the expired ones in a batch `toRemove`; the batch is deleted after
the loop (the live set is not mutated while iterated), and the HUD is
updated iff the batch is nonempty.  Score and effects are untouched. -/
def updateCoins (sq : ℚ → ℚ) (s : GState) (dt nowMs : ℚ) : GState :=
  let t := nowMs * (1 / 1000)
  let moved := s.coins.map (motionCoin sq s.rootPos.y t dt)
  let toRemove := moved.filter (isExpired nowMs)
  let kept := moved.filter (fun c => ! isExpired nowMs c)
  { s with
    coins := kept
    events := s.events ++ (if toRemove.isEmpty then [] else [Event.hudUpdate]) }

/-- Normalised tween time `t = min(1, (now - start) / dur)` (main.js
line 272). -/
def tweenT (start nowMs : ℚ) : ℚ :=
  min 1 ((nowMs - start) / EFFECT_DUR_MS)

/-- One frame of the collection tween as it acts on the material table
(main.js lines 275-279): writes the emissive lerped from the captured
start emissive toward white, opacity `1 - t`, and sets transparent.
Crucially this writes `obj.material`, an entry of the shared table. -/
def tweenFrameMats (mats : List Material) (matId : ℕ) (startEm : Vec3) (t : ℚ) :
    List Material :=
  match mats[matId]? with
  | none => mats
  | some m =>
      mats.set matId
        { m with
          emissive := lerpColors startEm ⟨1, 1, 1⟩ t
          opacity := 1 - t
          transparent := true }

/-- collect (main.js lines 261-288).  Guard: if the object is not in the
pool, return unchanged (line 262).  Otherwise: delete it from the pool
(line 263); capture start time, start scale and start emissive and run
the first tween frame synchronously (`tween()` at line 284, at elapsed
time 0, so `t = 0`); then `score += 1` (line 286) and `updateHUD()`
(line 287).  The event trace records this order: the effect starts
before the score increment. -/
def collect (s : GState) (objId : ℕ) (nowMs : ℚ) : GState :=
  match s.coins.find? (fun c => c.id == objId) with
  | none => s
  | some obj =>
      let startEm := (s.mats.getD obj.matId defaultMaterial).emissive
      let t0 := tweenT nowMs nowMs
      { s with
        coins := s.coins.filter (fun c => c.id != objId)
        mats := tweenFrameMats s.mats obj.matId startEm t0
        effects := s.effects ++
          [{ objId := objId, matId := obj.matId, start := nowMs
             startScale := obj.scale, startEm := startEm
             curScale := obj.scale * (1 + (6 / 5) * t0) }]
        score := s.score + 1
        events := s.events ++ [Event.effectStart objId, Event.scoreInc, Event.hudUpdate] }

/-- A later requestAnimationFrame step of an in-flight tween (main.js
lines 271-283), applied to the effect at index `eIdx` of the in-flight
list at wall-clock time `nowMs`: scales the detached object by
`startScale * (1 + 1.2 t)` and rewrites the (shared) material. -/
def tweenStep (s : GState) (eIdx : ℕ) (nowMs : ℚ) : GState :=
  match s.effects[eIdx]? with
  | none => s
  | some e =>
      let t := tweenT e.start nowMs
      { s with
        mats := tweenFrameMats s.mats e.matId e.startEm t
        effects := s.effects.set eIdx { e with curScale := e.startScale * (1 + (6 / 5) * t) } }

/-- checkProximityCollect (main.js lines 252-259): gather every coin whose
distance to the head position is below COLLECT_RADIUS into a batch, then
call collect on each. -/
def checkProximityCollect (s : GState) (head : Vec3) (nowMs : ℚ) : GState :=
  let toRemove := s.coins.filter (fun c => decide (dist2 c.pos head < COLLECT_RADIUS ^ 2))
  toRemove.foldl (fun st c => collect st c.id nowMs) s

/-- resetGame (main.js lines 302-312): removes every coin from the scene
and clears the pool (no collection effects are started), zeroes the
score, unplaces the gate, clears the paused flag, updates the HUD.
In-flight tweens are not touched (they are simply abandoned) and
`lastSpawnAt` is not reset. -/
def resetGame (s : GState) : GState :=
  { s with
    coins := []
    score := 0
    placed := false
    paused := false
    events := s.events ++ [Event.hudUpdate] }

/-- The fallback anchor of onPointerDown (main.js lines 154-159):
`origin + 1.5 * fwd` then `y -= 0.8`, where `fwd` is the normalised
camera-forward direction supplied by the environment. -/
def fallbackAnchor (camPos camFwd : Vec3) : Vec3 :=
  ⟨camPos.x + (3 / 2) * camFwd.x,
   camPos.y + (3 / 2) * camFwd.y - 4 / 5,
   camPos.z + (3 / 2) * camFwd.z⟩

/-- onPointerDown (main.js lines 144-175).  Unplaced: if the reticle is
visible, copy its pose into the spawn root and place; otherwise use the
fallback anchor (the fallback branch does not write the root quaternion).
Placed: the tap is resolved by the external raycaster to `picked`, the
id of the hit coin, if any, which is handed to collect. -/
def onPointerDown (s : GState) (reticleVisible : Bool) (reticlePos : Vec3)
    (reticleQuat : Quat) (camPos camFwd : Vec3) (picked : Option ℕ) (nowMs : ℚ) :
    GState :=
  if s.placed then
    match picked with
    | some objId => collect s objId nowMs
    | none => s
  else if reticleVisible then
    { s with rootPos := reticlePos, rootQuat := reticleQuat, placed := true }
  else
    { s with rootPos := fallbackAnchor camPos camFwd, placed := true }

/-- onXRFrame (main.js lines 103-116): when not paused and placed, run
Spawner, Motion/Lifecycle and Proximity in that order; otherwise only
render. -/
def onXRFrame (sq : ℚ → ℚ) (s : GState) (dt nowMs u : ℚ) (fresh : Coin)
    (head : Vec3) : GState :=
  if !s.paused && s.placed then
    checkProximityCollect (updateCoins sq (maybeSpawnCoins s nowMs u fresh) dt nowMs)
      head nowMs
  else s

/-- The pause button handler (main.js line 64): toggles the paused flag. -/
def togglePause (s : GState) : GState :=
  { s with paused := !s.paused }

/-- The initial module state (main.js lines 4-31): empty pool, score 0,
unplaced, unpaused, lastSpawnAt 0, identity spawn root. -/
def initState : GState :=
  { coins := []
    mats := [initialCoinMat]
    effects := []
    score := 0
    placed := false
    paused := false
    lastSpawnAt := 0
    rootPos := ⟨0, 0, 0⟩
    rootQuat := ⟨1, 0, 0, 0⟩
    events := [] }

/-- One externally triggered operation of the simulation, with the
environment inputs of that call quantified. -/
inductive Step : GState → GState → Prop where
  | frame (s : GState) (sq : ℚ → ℚ) (dt nowMs u : ℚ) (fresh : Coin) (head : Vec3) :
      Step s (onXRFrame sq s dt nowMs u fresh head)
  | spawn (s : GState) (nowMs u : ℚ) (fresh : Coin) :
      Step s (maybeSpawnCoins s nowMs u fresh)
  | burst (s : GState) (gen : ℕ → Coin) :
      Step s (spawnBurst s gen)
  | motion (s : GState) (sq : ℚ → ℚ) (dt nowMs : ℚ) :
      Step s (updateCoins sq s dt nowMs)
  | proximity (s : GState) (head : Vec3) (nowMs : ℚ) :
      Step s (checkProximityCollect s head nowMs)
  | pointer (s : GState) (rv : Bool) (rp : Vec3) (rq : Quat) (camP camF : Vec3)
      (picked : Option ℕ) (nowMs : ℚ) :
      Step s (onPointerDown s rv rp rq camP camF picked nowMs)
  | collectOp (s : GState) (objId : ℕ) (nowMs : ℚ) :
      Step s (collect s objId nowMs)
  | tween (s : GState) (eIdx : ℕ) (nowMs : ℚ) :
      Step s (tweenStep s eIdx nowMs)
  | pauseBtn (s : GState) : Step s (togglePause s)
  | resetBtn (s : GState) : Step s (resetGame s)

/-- Reachability from the initial state by the operations above. -/
inductive Reachable : GState → Prop where
  | init : Reachable initState
  | step {s t : GState} : Reachable s → Step s t → Reachable t

/-! ### Helper lemmas about collect -/

theorem collect_flags (s : GState) (objId : ℕ) (nowMs : ℚ) :
    (collect s objId nowMs).placed = s.placed ∧
    (collect s objId nowMs).paused = s.paused ∧
    (collect s objId nowMs).rootPos = s.rootPos ∧
    (collect s objId nowMs).rootQuat = s.rootQuat ∧
    (collect s objId nowMs).lastSpawnAt = s.lastSpawnAt := by
  cases h : s.coins.find? (fun c => c.id == objId) with
  | none => simp [collect, h]
  | some obj => simp [collect, h]

theorem collect_length_le (s : GState) (objId : ℕ) (nowMs : ℚ) :
    (collect s objId nowMs).coins.length ≤ s.coins.length := by
  cases h : s.coins.find? (fun c => c.id == objId) with
  | none => simp [collect, h]
  | some obj => simpa [collect, h] using List.length_filter_le _ s.coins

theorem foldl_collect_length_le (nowMs : ℚ) (L : List Coin) (st : GState) :
    ((L.foldl (fun a c => collect a c.id nowMs) st).coins.length ≤ st.coins.length) := by
  induction L generalizing st with
  | nil => simp
  | cons p ps ih =>
      exact le_trans (ih (collect st p.id nowMs)) (collect_length_le st p.id nowMs)

/-- What collect does when the target coin is a member of the pool. -/
theorem collect_present (st : GState) (p : Coin) (nowMs : ℚ) (hp : p ∈ st.coins) :
    (collect st p.id nowMs).coins = st.coins.filter (fun c => c.id != p.id) ∧
    (collect st p.id nowMs).score = st.score + 1 ∧
    (collect st p.id nowMs).events
      = st.events ++ [Event.effectStart p.id, Event.scoreInc, Event.hudUpdate] := by
  have hsome : (st.coins.find? (fun c => c.id == p.id)).isSome :=
    List.find?_isSome.2 ⟨p, hp, by simp⟩
  obtain ⟨obj, hobj⟩ := Option.isSome_iff_exists.1 hsome
  refine ⟨?_, ?_, ?_⟩ <;> simp [collect, hobj]

/-! ### C7: double removal is a guarded no-op -/

/-- C7: calling collect on an entity that is not in the pool (already
removed, or a stale handle from tap-to-collect) is a no-op: the guard
`if (!coins.has(obj)) return` leaves the pool, the score and all other
state unchanged, and no crash occurs (the function is total). -/
theorem collect_absent_noop (s : GState) (objId : ℕ) (nowMs : ℚ)
    (h : ∀ c ∈ s.coins, c.id ≠ objId) :
    collect s objId nowMs = s := by
  have hnone : s.coins.find? (fun c => c.id == objId) = none :=
    List.find?_eq_none.2 (fun c hc => by simpa using h c hc)
  simp [collect, hnone]

/-- Witness for C7 at a concrete input: collecting the absent handle 5 in
the initial state leaves the state unchanged. -/
theorem collect_absent_noop_witness : collect initState 5 0 = initState :=
  collect_absent_noop initState 5 0 (by simp [initState])

/-! ### C8: reset postcondition and idempotence -/

/-- C8: resetGame discards all live entities without starting any
collection effect (the only emitted event is a HUD update and the
in-flight effect list is untouched), zeroes the score, unplaces the
gate and clears the paused flag; a second resetGame yields the same
simulation state (every field except the appended HUD notification in
the event trace) as a single one. -/
theorem reset_spec (s : GState) :
    (resetGame s).coins = [] ∧
    (resetGame s).score = 0 ∧
    (resetGame s).placed = false ∧
    (resetGame s).paused = false ∧
    (resetGame s).events = s.events ++ [Event.hudUpdate] ∧
    (resetGame s).effects = s.effects ∧
    (resetGame (resetGame s)).coins = (resetGame s).coins ∧
    (resetGame (resetGame s)).score = (resetGame s).score ∧
    (resetGame (resetGame s)).placed = (resetGame s).placed ∧
    (resetGame (resetGame s)).paused = (resetGame s).paused ∧
    (resetGame (resetGame s)).lastSpawnAt = (resetGame s).lastSpawnAt ∧
    (resetGame (resetGame s)).rootPos = (resetGame s).rootPos ∧
    (resetGame (resetGame s)).rootQuat = (resetGame s).rootQuat ∧
    (resetGame (resetGame s)).mats = (resetGame s).mats ∧
    (resetGame (resetGame s)).effects = (resetGame s).effects := by
  simp [resetGame]

/-! ### C6: burst clamping -/

/-- C6: a burst bypasses the spawn-interval check (spawnBurst reads no
timer) and, when the gate is placed, spawns exactly
`min 10 (MAX_COINS - poolSize)` entities, so a pool within the cap stays
within the cap. -/
theorem burst_clamp (s : GState) (gen : ℕ → Coin) (hp : s.placed = true) :
    (spawnBurst s gen).coins.length
        = s.coins.length + min 10 (MAX_COINS - s.coins.length) ∧
    (s.coins.length ≤ MAX_COINS → (spawnBurst s gen).coins.length ≤ MAX_COINS) := by
  constructor
  · simp [spawnBurst, hp]
  · intro h
    simp only [spawnBurst, hp, if_true, List.length_append, List.length_map,
      List.length_range]
    simp [MAX_COINS] at h ⊢
    omega

/-- A placeholder coin used to build concrete witness states. -/
def stubCoin (i : ℕ) : Coin :=
  { id := i, createdAt := 0, pos := ⟨0, 0, 0⟩, rotY := 0, spin := 1,
    bobAmp := 1 / 10, phase := 0, scale := 1, matId := 0 }

/-- A placed state holding 25 coins (the scenario of the spec). -/
def burstState : GState :=
  { initState with placed := true, coins := (List.range 25).map stubCoin }

/-- Witness for C6 at the concrete scenario of the spec: cap 30, current
size 25, burst request 10 → exactly 5 spawned, pool size 30. -/
theorem burst_clamp_witness :
    burstState.coins.length = 25 ∧
    (spawnBurst burstState stubCoin).coins.length = 30 := by
  have h := burst_clamp burstState stubCoin rfl
  constructor
  · simp [burstState]
  · rw [h.1]
    simp [burstState, MAX_COINS]

/-! ### C10: burst is gated only on placed, not on paused -/

/-- C10: spawnBurst tests only the placed flag, so in a placed and paused
state a burst still adds `min 10 (MAX_COINS - poolSize)` coins, even
though the per-tick Spawn/Motion/Proximity phases of onXRFrame are
suspended by the paused flag (the frame leaves the state unchanged). -/
theorem burst_ignores_paused (s : GState) (gen : ℕ → Coin) (sq : ℚ → ℚ)
    (dt nowMs u : ℚ) (fresh : Coin) (head : Vec3)
    (hp : s.placed = true) (hq : s.paused = true) :
    (spawnBurst s gen).coins.length
        = s.coins.length + min 10 (MAX_COINS - s.coins.length) ∧
    onXRFrame sq s dt nowMs u fresh head = s := by
  constructor
  · simp [spawnBurst, hp]
  · simp [onXRFrame, hq]

/-- A placed and paused state with an empty pool. -/
def pausedState : GState := { initState with placed := true, paused := true }

/-- Witness for C10: in the placed, paused, empty state a frame is a
no-op yet a burst adds 10 coins. -/
theorem burst_ignores_paused_witness :
    (spawnBurst pausedState stubCoin).coins.length = 10 ∧
    onXRFrame (fun q => q) pausedState 16 1000 0 (stubCoin 0) ⟨0, 0, 0⟩ = pausedState := by
  have h := burst_ignores_paused pausedState stubCoin (fun q => q) 16 1000 0
    (stubCoin 0) ⟨0, 0, 0⟩ rfl rfl
  refine ⟨?_, h.2⟩
  rw [h.1]
  simp [pausedState, initState, MAX_COINS]

/-! ### C5: spawn timing and minimum gap -/

/-- The firing condition of maybeSpawnCoins: pool below cap and elapsed
time at least `SPAWN_INTERVAL_MS` times the jitter factor of this
evaluation. -/
def spawnFires (s : GState) (nowMs u : ℚ) : Bool :=
  decide (s.coins.length < MAX_COINS) &&
    decide (SPAWN_INTERVAL_MS * (7 / 10 + u * (8 / 10)) ≤ nowMs - s.lastSpawnAt)

/-- C5: maybeSpawnCoins fires exactly when `spawnFires` holds for the
jitter draw `u` of this evaluation (the factor `0.7 + u * 0.8` is
recomputed from a fresh draw on every call); on firing it records
`lastSpawnAt = nowMs` and appends one coin, and firing requires
`nowMs - lastSpawnAt ≥ SPAWN_INTERVAL_MS * 0.7 = 980`; a non-firing call
leaves the state untouched, so two successive fires at `t1` then `t2`
are at least 980 ms apart. -/
theorem spawn_timing (s : GState) (t1 t2 u1 u2 : ℚ) (f1 : Coin)
    (hu1 : 0 ≤ u1) (hu2 : 0 ≤ u2) :
    (spawnFires s t1 u1 = true →
      (maybeSpawnCoins s t1 u1 f1).lastSpawnAt = t1 ∧
      (maybeSpawnCoins s t1 u1 f1).coins = s.coins ++ [f1] ∧
      SPAWN_INTERVAL_MS * (7 / 10) ≤ t1 - s.lastSpawnAt) ∧
    (spawnFires s t1 u1 = false → maybeSpawnCoins s t1 u1 f1 = s) ∧
    (spawnFires s t1 u1 = true →
      spawnFires (maybeSpawnCoins s t1 u1 f1) t2 u2 = true →
      SPAWN_INTERVAL_MS * (7 / 10) ≤ t2 - t1) := by
  have key : ∀ (st : GState) (t v : ℚ), 0 ≤ v → spawnFires st t v = true →
      SPAWN_INTERVAL_MS * (7 / 10) ≤ t - st.lastSpawnAt := by
    intro st t v hv hf
    simp only [spawnFires, Bool.and_eq_true, decide_eq_true_eq] at hf
    have h2 := hf.2
    have : SPAWN_INTERVAL_MS * (7 / 10) ≤ SPAWN_INTERVAL_MS * (7 / 10 + v * (8 / 10)) := by
      simp only [SPAWN_INTERVAL_MS]
      nlinarith
    linarith
  have fire_eq : spawnFires s t1 u1 = true → maybeSpawnCoins s t1 u1 f1 = { s with lastSpawnAt := t1, coins := s.coins ++ [f1], events := s.events ++ [Event.hudUpdate] } := by
    intro hf
    simp only [spawnFires, Bool.and_eq_true, decide_eq_true_eq] at hf
    have hlt : ¬ MAX_COINS ≤ s.coins.length := by omega
    have hgap : ¬ t1 - s.lastSpawnAt < SPAWN_INTERVAL_MS * (7 / 10 + u1 * (8 / 10)) := by
      exact not_lt.2 hf.2
    simp [maybeSpawnCoins, hlt, hgap]
  refine ⟨?_, ?_, ?_⟩
  · intro hf
    rw [fire_eq hf]
    exact ⟨rfl, rfl, key s t1 u1 hu1 hf⟩
  · intro hf
    by_cases hcap : MAX_COINS ≤ s.coins.length
    · simp [maybeSpawnCoins, hcap]
    · have hlen : s.coins.length < MAX_COINS := lt_of_not_le hcap
      have hng : ¬ SPAWN_INTERVAL_MS * (7 / 10 + u1 * (8 / 10)) ≤ t1 - s.lastSpawnAt := by
        intro hle
        have htrue : spawnFires s t1 u1 = true := by
          simp [spawnFires, hlen, hle]
        simp [htrue] at hf
      have hlt2 : t1 - s.lastSpawnAt < SPAWN_INTERVAL_MS * (7 / 10 + u1 * (8 / 10)) :=
        not_le.1 hng
      simp [maybeSpawnCoins, hcap, hlt2]
  · intro hf1 hf2
    have := key (maybeSpawnCoins s t1 u1 f1) t2 u2 hu2 hf2
    rw [fire_eq hf1] at this
    simpa using this

/-! ### Witness for C5 -/

/-- Witness for C5 at concrete inputs: from the initial state (timer 0) a
call at `t = 2000` with jitter draw `u = 1/2` fires, records the spawn
time and respects the 980 ms floor. -/
theorem spawn_timing_witness :
    (maybeSpawnCoins initState 2000 (1 / 2) (stubCoin 0)).lastSpawnAt = 2000 ∧
    (maybeSpawnCoins initState 2000 (1 / 2) (stubCoin 0)).coins = [stubCoin 0] ∧
    SPAWN_INTERVAL_MS * (7 / 10) ≤ 2000 - initState.lastSpawnAt := by
  have hfire : spawnFires initState 2000 (1 / 2) = true := by
    simp [spawnFires, initState, MAX_COINS, SPAWN_INTERVAL_MS]
    norm_num
  have h := (spawn_timing initState 2000 0 (1 / 2) 0 (stubCoin 0)
    (by norm_num) (by norm_num)).1 hfire
  exact ⟨h.1, by rw [h.2.1]; simp [initState], h.2.2⟩

/-! ### C9: placement gate with fallback anchor -/

/-- C9: on a primary-action event in the unplaced state with no reticle
pose available, the anchor is set deterministically to the camera
position moved 1.5 m along the view direction and 0.8 m down, and the
gate transitions to placed; once placed, a pointer event never changes
the anchor position, the anchor orientation or the placed flag (the tap
is routed to collect, which touches neither). -/
theorem placement_gate (s : GState) (rv : Bool) (rp : Vec3) (rq : Quat)
    (camP camF : Vec3) (picked : Option ℕ) (nowMs : ℚ) :
    (s.placed = false → rv = false →
      (onPointerDown s rv rp rq camP camF picked nowMs).rootPos
          = fallbackAnchor camP camF ∧
      (onPointerDown s rv rp rq camP camF picked nowMs).placed = true) ∧
    (s.placed = true →
      (onPointerDown s rv rp rq camP camF picked nowMs).rootPos = s.rootPos ∧
      (onPointerDown s rv rp rq camP camF picked nowMs).rootQuat = s.rootQuat ∧
      (onPointerDown s rv rp rq camP camF picked nowMs).placed = true) := by
  constructor
  · intro hp hrv
    subst hrv
    simp [onPointerDown, hp]
  · intro hp
    cases picked with
    | none => simp [onPointerDown, hp]
    | some objId =>
        have hc := collect_flags s objId nowMs
        simp only [onPointerDown, hp, if_true]
        exact ⟨hc.2.2.1, hc.2.2.2.1, hc.1 ▸ hp⟩

/-- Witness for C9: from the initial (unplaced) state, a tap with no
reticle, camera at the origin looking along -z, places the anchor at
(0, -0.8, -1.5). -/
theorem placement_gate_witness :
    (onPointerDown initState false ⟨0, 0, 0⟩ ⟨1, 0, 0, 0⟩ ⟨0, 0, 0⟩ ⟨0, 0, -1⟩
        none 0).rootPos = ⟨0, -(4 / 5), -(3 / 2)⟩ ∧
    (onPointerDown initState false ⟨0, 0, 0⟩ ⟨1, 0, 0, 0⟩ ⟨0, 0, 0⟩ ⟨0, 0, -1⟩
        none 0).placed = true := by
  have h := (placement_gate initState false ⟨0, 0, 0⟩ ⟨1, 0, 0, 0⟩ ⟨0, 0, 0⟩
    ⟨0, 0, -1⟩ none 0).1 rfl rfl
  refine ⟨h.1.trans ?_, h.2⟩
  simp only [fallbackAnchor]
  norm_num

/-! ### C4: expiry is a silent batched despawn -/

/-- The motion update leaves the creation timestamp alone, so the expiry
test commutes with it. -/
theorem isExpired_motionCoin (sq : ℚ → ℚ) (rootY t dt nowMs : ℚ) (c : Coin) :
    isExpired nowMs (motionCoin sq rootY t dt c) = isExpired nowMs c := by
  simp [isExpired, motionCoin]

theorem length_filter_split {α : Type} (p : α → Bool) (l : List α) :
    (l.filter p).length + (l.filter (fun a => !p a)).length = l.length := by
  induction l with
  | nil => simp
  | cons a l ih =>
      cases h : p a <;> simp [List.filter_cons, h] <;> omega

/-- C4: on a tick at `nowMs`, every live entity with
`nowMs - createdAt > COIN_LIFETIME` is gathered into a removal batch and
evicted after the iteration; the surviving pool holds exactly the
non-expired entities (so the live count drops by the batch size), the
score is untouched, no collection effect is started, and the only
emitted event is a HUD update when the batch is nonempty. -/
theorem expiry_silent (sq : ℚ → ℚ) (s : GState) (dt nowMs : ℚ) :
    (updateCoins sq s dt nowMs).score = s.score ∧
    (updateCoins sq s dt nowMs).effects = s.effects ∧
    (∀ c ∈ (updateCoins sq s dt nowMs).coins, ¬ COIN_LIFETIME < nowMs - c.createdAt) ∧
    (updateCoins sq s dt nowMs).coins.length
        + (s.coins.filter (isExpired nowMs)).length = s.coins.length ∧
    (updateCoins sq s dt nowMs).events
        = s.events ++ (if (s.coins.filter (isExpired nowMs)).isEmpty then []
            else [Event.hudUpdate]) := by
  refine ⟨by simp [updateCoins], by simp [updateCoins], ?_, ?_, ?_⟩
  · intro c hc
    simp only [updateCoins, List.mem_filter] at hc
    have := hc.2
    simpa [isExpired] using this
  · show ((s.coins.map _).filter _).length + _ = _
    rw [List.filter_map]
    simp only [List.length_map]
    have hcong : (s.coins.filter
          ((fun c => !isExpired nowMs c) ∘ motionCoin sq s.rootPos.y (nowMs * (1 / 1000)) dt))
        = s.coins.filter (fun c => !isExpired nowMs c) := by
      apply List.filter_congr
      intro c _
      simp [Function.comp, isExpired_motionCoin]
    rw [hcong, Nat.add_comm]
    exact length_filter_split (isExpired nowMs) s.coins
  · show _ ++ (if ((s.coins.map _).filter _).isEmpty then _ else _) = _
    rw [List.filter_map]
    have hcong : (s.coins.filter
          (isExpired nowMs ∘ motionCoin sq s.rootPos.y (nowMs * (1 / 1000)) dt))
        = s.coins.filter (isExpired nowMs) := by
      apply List.filter_congr
      intro c _
      simp [Function.comp, isExpired_motionCoin]
    rw [hcong]
    simp [List.isEmpty_iff]

/-- A state holding one stale coin (born at 0) and one fresh coin (born
at 24000). -/
def expiryState : GState :=
  { initState with
      placed := true
      coins := [stubCoin 1, { (stubCoin 2) with createdAt := 24000 }] }

/-- Witness for C4: at `nowMs = 25000` the coin born at 0 has exceeded
COIN_LIFETIME and is evicted, the coin born at 24000 survives, and the
score is unchanged. -/
theorem expiry_silent_witness :
    (updateCoins (fun _ => 0) expiryState 16 25000).score = expiryState.score ∧
    (updateCoins (fun _ => 0) expiryState 16 25000).coins.length + 1 = 2 := by
  have h := expiry_silent (fun _ => 0) expiryState 16 25000
  refine ⟨h.1, ?_⟩
  have hlen : (expiryState.coins.filter (isExpired 25000)).length = 1 := by
    simp [expiryState, stubCoin, isExpired, COIN_LIFETIME, List.filter]
    norm_num
  have h4 := h.2.2.2.1
  rw [hlen] at h4
  have : expiryState.coins.length = 2 := by simp [expiryState]
  omega

/-! ### C1: population invariant -/

theorem maybeSpawnCoins_cap (s : GState) (nowMs u : ℚ) (fresh : Coin)
    (h : s.coins.length ≤ MAX_COINS) :
    (maybeSpawnCoins s nowMs u fresh).coins.length ≤ MAX_COINS := by
  unfold maybeSpawnCoins
  split_ifs with h1 h2
  · exact h
  · exact h
  · simp only [List.length_append, List.length_cons, List.length_nil]
    omega

theorem spawnBurst_cap (s : GState) (gen : ℕ → Coin)
    (h : s.coins.length ≤ MAX_COINS) :
    (spawnBurst s gen).coins.length ≤ MAX_COINS := by
  unfold spawnBurst
  split_ifs with h1
  · simp only [List.length_append, List.length_map, List.length_range]
    omega
  · exact h

theorem updateCoins_length_le (sq : ℚ → ℚ) (s : GState) (dt nowMs : ℚ) :
    (updateCoins sq s dt nowMs).coins.length ≤ s.coins.length := by
  simp only [updateCoins]
  calc ((s.coins.map _).filter _).length
      ≤ (s.coins.map (motionCoin sq s.rootPos.y (nowMs * (1 / 1000)) dt)).length :=
        List.length_filter_le _ _
    _ = s.coins.length := List.length_map _ _

theorem checkProximityCollect_length_le (s : GState) (head : Vec3) (nowMs : ℚ) :
    (checkProximityCollect s head nowMs).coins.length ≤ s.coins.length := by
  exact foldl_collect_length_le nowMs _ s

theorem onPointerDown_cap (s : GState) (rv : Bool) (rp : Vec3) (rq : Quat)
    (camP camF : Vec3) (picked : Option ℕ) (nowMs : ℚ)
    (h : s.coins.length ≤ MAX_COINS) :
    (onPointerDown s rv rp rq camP camF picked nowMs).coins.length ≤ MAX_COINS := by
  unfold onPointerDown
  split_ifs with h1 h2
  · cases picked with
    | none => exact h
    | some objId => exact le_trans (collect_length_le s objId nowMs) h
  · exact h
  · exact h

theorem tweenStep_coins_eq (s : GState) (eIdx : ℕ) (nowMs : ℚ) :
    (tweenStep s eIdx nowMs).coins = s.coins := by
  cases h : s.effects[eIdx]? with
  | none => simp [tweenStep, h]
  | some e => simp [tweenStep, h]

theorem onXRFrame_cap (sq : ℚ → ℚ) (s : GState) (dt nowMs u : ℚ) (fresh : Coin)
    (head : Vec3) (h : s.coins.length ≤ MAX_COINS) :
    (onXRFrame sq s dt nowMs u fresh head).coins.length ≤ MAX_COINS := by
  unfold onXRFrame
  split_ifs with h1
  · refine le_trans (checkProximityCollect_length_le _ _ _) ?_
    refine le_trans (updateCoins_length_le _ _ _ _) ?_
    exact maybeSpawnCoins_cap s nowMs u fresh h
  · exact h

/-- C1: in every reachable simulation state the pool satisfies
`0 ≤ poolSize ≤ MAX_COINS`: the initial pool is empty and each
operation — per-tick spawn, burst spawn, motion/expiry, proximity
collection, tap collection, tween steps, placement, pause and
reset — preserves the bound. -/
theorem population_invariant (s : GState) (h : Reachable s) :
    0 ≤ s.coins.length ∧ s.coins.length ≤ MAX_COINS := by
  refine ⟨Nat.zero_le _, ?_⟩
  induction h with
  | init => simp [initState]
  | step hr hstep ih =>
      cases hstep with
      | frame sq dt nowMs u fresh head => exact onXRFrame_cap sq _ dt nowMs u fresh head ih
      | spawn nowMs u fresh => exact maybeSpawnCoins_cap _ nowMs u fresh ih
      | burst gen => exact spawnBurst_cap _ gen ih
      | motion sq dt nowMs => exact le_trans (updateCoins_length_le sq _ dt nowMs) ih
      | proximity head nowMs =>
          exact le_trans (checkProximityCollect_length_le _ head nowMs) ih
      | pointer rv rp rq camP camF picked nowMs =>
          exact onPointerDown_cap _ rv rp rq camP camF picked nowMs ih
      | collectOp objId nowMs => exact le_trans (collect_length_le _ objId nowMs) ih
      | tween eIdx nowMs => rw [tweenStep_coins_eq]; exact ih
      | pauseBtn => exact ih
      | resetBtn => simp [resetGame]

/-- Witness for C1: the invariant instantiated at the initial state,
which is reachable by construction. -/
theorem population_invariant_witness :
    0 ≤ initState.coins.length ∧ initState.coins.length ≤ MAX_COINS :=
  population_invariant initState Reachable.init

/-! ### C2: proximity collection -/

/-- The proximity test of checkProximityCollect (main.js line 256),
phrased on squared distances. -/
def nearHead (head : Vec3) (c : Coin) : Bool :=
  decide (dist2 c.pos head < COLLECT_RADIUS ^ 2)

/-- Folding collect over a batch of coins that are all pool members with
pairwise distinct ids: the batch is removed, the score rises by the
batch size, and for each batch element the trace records the effect
start, then the score increment, then the HUD update. -/
theorem foldl_collect_spec (nowMs : ℚ) (pending : List Coin) :
    ∀ (st : GState), (∀ c ∈ pending, c ∈ st.coins) → (pending.map Coin.id).Nodup →
    ((pending.foldl (fun a c => collect a c.id nowMs) st).coins
        = st.coins.filter (fun c => !(pending.any (fun p => p.id == c.id)))) ∧
    ((pending.foldl (fun a c => collect a c.id nowMs) st).score
        = st.score + pending.length) ∧
    ((pending.foldl (fun a c => collect a c.id nowMs) st).events
        = st.events ++ pending.flatMap
            (fun c => [Event.effectStart c.id, Event.scoreInc, Event.hudUpdate])) := by
  induction pending with
  | nil => intro st _ _; simp
  | cons p ps ih =>
      intro st hsub hnd
      have hp : p ∈ st.coins := hsub p (by simp)
      have hc := collect_present st p nowMs hp
      have hpid : p.id ∉ ps.map Coin.id := (List.nodup_cons.1 (by simpa using hnd)).1
      have hsub1 : ∀ c ∈ ps, c ∈ (collect st p.id nowMs).coins := by
        intro c hcps
        rw [hc.1]
        refine List.mem_filter.2 ⟨hsub c (by simp [hcps]), ?_⟩
        simp only [bne_iff_ne, ne_eq]
        intro hEq
        exact hpid (hEq ▸ List.mem_map_of_mem Coin.id hcps)
      have hnd1 : (ps.map Coin.id).Nodup := (List.nodup_cons.1 (by simpa using hnd)).2
      have IH := ih (collect st p.id nowMs) hsub1 hnd1
      refine ⟨?_, ?_, ?_⟩
      · rw [List.foldl_cons, IH.1, hc.1, List.filter_filter]
        apply List.filter_congr
        intro c _
        by_cases hEq : p.id = c.id
        · simp [hEq]
        · have e1 : (c.id != p.id) = true := bne_iff_ne.mpr (Ne.symm hEq)
          have e2 : (p.id == c.id) = false := beq_eq_false_iff_ne.mpr hEq
          simp [List.any_cons, e1, e2]
      · rw [List.foldl_cons, IH.2.1, hc.2.1]
        simp only [List.length_cons]
        omega
      · rw [List.foldl_cons, IH.2.2, hc.2.2]
        simp [List.flatMap_cons, List.append_assoc]

/-- C2 (amended ordering): on a proximity tick with pairwise distinct
entity ids, every live entity strictly inside the capture radius is
removed from the pool in that same tick and the score is incremented by
exactly 1 for each, synchronously inside the same collect call; the
trace shows that for each collected entity the first synchronous frame
of its collection effect runs first and the score increment follows
immediately after it (not before the effect starts). -/
theorem proximity_collect_spec (s : GState) (head : Vec3) (nowMs : ℚ)
    (hnd : (s.coins.map Coin.id).Nodup) :
    (checkProximityCollect s head nowMs).coins
        = s.coins.filter (fun c => !nearHead head c) ∧
    (checkProximityCollect s head nowMs).score
        = s.score + (s.coins.filter (nearHead head)).length ∧
    (checkProximityCollect s head nowMs).events
        = s.events ++ (s.coins.filter (nearHead head)).flatMap
            (fun c => [Event.effectStart c.id, Event.scoreInc, Event.hudUpdate]) := by
  have hsub : ∀ c ∈ s.coins.filter (nearHead head), c ∈ s.coins :=
    fun c hc => List.mem_of_mem_filter hc
  have hndf : ((s.coins.filter (nearHead head)).map Coin.id).Nodup :=
    List.Nodup.sublist (List.Sublist.map Coin.id (List.filter_sublist s.coins)) hnd
  have H := foldl_collect_spec nowMs (s.coins.filter (nearHead head)) s hsub hndf
  have hpred : ∀ c ∈ s.coins,
      ((s.coins.filter (nearHead head)).any (fun p => p.id == c.id)) = nearHead head c := by
    intro c hcmem
    by_cases hnear : nearHead head c = true
    · rw [hnear]
      exact List.any_eq_true.2 ⟨c, List.mem_filter.2 ⟨hcmem, hnear⟩, by simp⟩
    · rw [Bool.not_eq_true] at hnear
      rw [hnear]
      rw [Bool.eq_false_iff]
      intro hany
      obtain ⟨p, hpmem, hpid⟩ := List.any_eq_true.1 hany
      have hpcoins : p ∈ s.coins := List.mem_of_mem_filter hpmem
      have hpnear : nearHead head p = true := (List.mem_filter.1 hpmem).2
      have hpc : p = c :=
        List.inj_on_of_nodup_map hnd hpcoins hcmem (by simpa using hpid)
      rw [hpc] at hpnear
      rw [hnear] at hpnear
      exact Bool.false_ne_true hpnear
  refine ⟨?_, ?_, H.2.2⟩
  · rw [show checkProximityCollect s head nowMs
        = (s.coins.filter (nearHead head)).foldl (fun a c => collect a c.id nowMs) s
      from rfl, H.1]
    apply List.filter_congr
    intro c hcmem
    rw [hpred c hcmem]
  · exact H.2.1

/-- A coin sitting exactly at the head position. -/
def coinNear : Coin :=
  { id := 1, createdAt := 0, pos := ⟨0, 0, 0⟩, rotY := 0, spin := 1,
    bobAmp := 1 / 10, phase := 0, scale := 1, matId := 0 }

/-- A placed state with a single coin within capture range of the origin. -/
def cexState : GState := { initState with coins := [coinNear], placed := true }

/-- Counterexample to C2 as stated: in the concrete proximity tick the
trace is effect start, then score increment, then HUD update — there is
no position of the trace at which the score increment precedes the start
of the collection effect, so the score is NOT incremented before the
collection effect runs; it is incremented immediately after the effect
ran its first synchronous frame (main.js runs `tween()` at line 284
before `score += 1` at line 286). -/
theorem proximity_collect_order_cex :
    (checkProximityCollect cexState ⟨0, 0, 0⟩ 1000).events
        = [Event.effectStart 1, Event.scoreInc, Event.hudUpdate] ∧
    ¬ ((checkProximityCollect cexState ⟨0, 0, 0⟩ 1000).events.indexOf Event.scoreInc
        < (checkProximityCollect cexState ⟨0, 0, 0⟩ 1000).events.indexOf
            (Event.effectStart 1)) := by
  have hev : (checkProximityCollect cexState ⟨0, 0, 0⟩ 1000).events
      = [Event.effectStart 1, Event.scoreInc, Event.hudUpdate] := by
    norm_num [checkProximityCollect, List.filter, collect, List.find?, cexState,
      coinNear, initState, dist2, COLLECT_RADIUS]
  refine ⟨hev, ?_⟩
  rw [hev]
  decide

/-- Witness for the amended C2 theorem at a concrete input: the coin at
the head position is collected on the tick, the pool empties and the
score rises by exactly 1. -/
theorem proximity_collect_spec_witness :
    (checkProximityCollect cexState ⟨0, 0, 0⟩ 1000).coins = [] ∧
    (checkProximityCollect cexState ⟨0, 0, 0⟩ 1000).score = 1 := by
  have hnd : (cexState.coins.map Coin.id).Nodup := by simp [cexState, coinNear]
  have h := proximity_collect_spec cexState ⟨0, 0, 0⟩ 1000 hnd
  have hnear : nearHead ⟨0, 0, 0⟩ coinNear = true := by
    simp only [nearHead, dist2, coinNear, COLLECT_RADIUS, decide_eq_true_eq]
    norm_num
  constructor
  · rw [h.1]
    simp [cexState, List.filter, hnear]
  · rw [h.2.1]
    have hfil : cexState.coins.filter (nearHead ⟨0, 0, 0⟩) = [coinNear] := by
      simp [cexState, List.filter, hnear]
    rw [hfil]
    simp [cexState, initState]

/-! ### C3: the collection effect writes the shared material -/

/-- First of two coins sharing material 0 of the singleton table. -/
def coinA : Coin :=
  { id := 1, createdAt := 0, pos := ⟨0, 0, 0⟩, rotY := 0, spin := 1,
    bobAmp := 1 / 10, phase := 0, scale := 1, matId := 0 }

/-- Second coin; far from the first, same shared material. -/
def coinB : Coin :=
  { id := 2, createdAt := 0, pos := ⟨10, 0, 0⟩, rotY := 0, spin := 1,
    bobAmp := 1 / 10, phase := 0, scale := 1, matId := 0 }

/-- A placed state with two pooled coins that both reference the shared
material created by getSharedCoinMat. -/
def sharedMatState : GState :=
  { initState with placed := true, coins := [coinA, coinB] }

/-- C3 fails on the code: collecting coin 1 leaves coin 2 in the pool,
yet the collection effect mutates the singleton material that coin 2
also renders with — the first synchronous tween frame already flips its
transparent flag, and the tween frame 90 ms later drops its opacity from
1 to 1/2.  The visual attributes of an entity still in the pool are
therefore changed by the collection effect of another entity, because
`obj.material` is the shared MeshStandardMaterial, not a per-entity
copy. -/
theorem shared_material_leak :
    coinB ∈ (collect sharedMatState 1 1000).coins ∧
    ((collect sharedMatState 1 1000).mats.getD coinB.matId defaultMaterial).transparent
        = true ∧
    ((tweenStep (collect sharedMatState 1 1000) 0 1090).mats.getD coinB.matId
        defaultMaterial).opacity = 1 / 2 ∧
    (sharedMatState.mats.getD coinB.matId defaultMaterial).opacity = 1 := by
  have hfind : sharedMatState.coins.find? (fun c => c.id == 1) = some coinA := by
    simp [sharedMatState, coinA, List.find?]
  have ht0 : tweenT 1000 1000 = 0 := by
    norm_num [tweenT, EFFECT_DUR_MS]
  have ht1 : tweenT 1000 1090 = 1 / 2 := by
    norm_num [tweenT, EFFECT_DUR_MS, min_def]
  refine ⟨?_, ?_, ?_, ?_⟩
  · simp [collect, hfind, sharedMatState, coinA, coinB, initState, List.filter]
  · simp [collect, hfind, ht0, tweenFrameMats, sharedMatState, coinA, coinB, initState]
  · simp [tweenStep, collect, hfind, ht0, ht1, tweenFrameMats, sharedMatState,
      coinA, coinB, initState]
    norm_num
  · simp [sharedMatState, initState, initialCoinMat, coinB]

end PlaceCollect
